import Mathlib

/-!
Shallow embedding of the TwitchUp live-notification bot.

The storage module (`storage.js`) keeps a JSON record `{streamers, lastNotified}`;
`twitch-api.js`/`index.js` sweep all watched streamers, update their stored state
and send Discord notifications on offline-to-live edges approved by the dedup
policy.  Timestamps are modelled as natural numbers (milliseconds since the
epoch); ISO-8601 strings compared through `new Date` are order-isomorphic to
this model.  The JS object `lastNotified` is modelled as an association list.
-/

namespace TwitchUp

/-- A Twitch user record as returned by the external API (`getUserByUsername`). -/
structure ApiUser where
  id : String
  login : String
  display_name : String
  profile_image_url : String
deriving DecidableEq

/-- A live-stream record as returned by the external API (`checkIfLive`);
`started_at` is `none` when the API omits the session-start timestamp. -/
structure ApiStream where
  title : String
  game_name : String
  thumbnail_url : String
  viewer_count : Nat
  started_at : Option Nat
deriving DecidableEq

/-- The `currentStream` session metadata stored on a watched streamer
(storage lines 116-122). -/
structure CurrentStream where
  title : String
  gameName : String
  thumbnailUrl : String
  viewerCount : Nat
  startedAt : Option Nat
deriving DecidableEq

/-- A watched streamer as persisted in `streamers.json` (storage lines 53-60). -/
structure Streamer where
  id : String
  username : String
  displayName : String
  profileImageUrl : String
  addedAt : Nat
  isLive : Bool
  currentStream : Option CurrentStream
deriving DecidableEq

/-- The persisted storage record: the watched-streamer list plus the
`lastNotified` dedup ledger mapping identifier to last-notification time. -/
structure Storage where
  streamers : List Streamer
  lastNotified : List (String × Nat)
deriving DecidableEq

/-- Property read `storage.lastNotified[id]` on the ledger object. -/
def ledgerGet : List (String × Nat) → String → Option Nat
  | [], _ => none
  | (k, v) :: t, id => if k = id then some v else ledgerGet t id

/-- Property assignment `storage.lastNotified[id] = v` on the ledger object. -/
def ledgerSet : List (String × Nat) → String → Nat → List (String × Nat)
  | [], id, v => [(id, v)]
  | (k, w) :: t, id, v => if k = id then (id, v) :: t else (k, w) :: ledgerSet t id v

/-- Property deletion `delete storage.lastNotified[id]` on the ledger object. -/
def ledgerDel : List (String × Nat) → String → List (String × Nat)
  | [], _ => []
  | (k, v) :: t, id => if k = id then ledgerDel t id else (k, v) :: ledgerDel t id

/-- `storage.streamers.some(s => s.id === id)` (storage line 46). -/
def hasId : List Streamer → String → Bool
  | [], _ => false
  | s :: t, id => if s.id = id then true else hasId t id

/-- `storage.streamers.filter(s => s.id !== streamerId)` (storage line 75). -/
def removeId : List Streamer → String → List Streamer
  | [], _ => []
  | s :: t, id => if s.id = id then removeId t id else s :: removeId t id

/-- `storage.streamers.find(s => s.id === streamerId)` (storage line 105). -/
def findS : List Streamer → String → Option Streamer
  | [], _ => none
  | s :: t, id => if s.id = id then some s else findS t id

/-- Initial storage contents created by `initStorage` (storage lines 12-15). -/
def initStorage : Storage := ⟨[], []⟩

/-- The streamer record pushed by `addStreamer` (storage lines 53-60). -/
def mkStreamer (u : ApiUser) (addedAt : Nat) : Streamer :=
  ⟨u.id, u.login, u.display_name, u.profile_image_url, addedAt, false, none⟩

/-- `addStreamer`: returns false when the id is already present, otherwise
appends the new record (never live, no current stream) and returns true. -/
def addStreamer (u : ApiUser) (addedAt : Nat) (st : Storage) : Bool × Storage :=
  if hasId st.streamers u.id then (false, st)
  else (true, { st with streamers := st.streamers ++ [mkStreamer u addedAt] })

/-- `removeStreamer`: filters the id out of the list, deletes a ledger entry
for it when one exists, and reports whether the list shrank. -/
def removeStreamer (id : String) (st : Storage) : Bool × Storage :=
  let remaining := removeId st.streamers id
  let ledger :=
    match ledgerGet st.lastNotified id with
    | some _ => ledgerDel st.lastNotified id
    | none => st.lastNotified
  (decide (remaining.length < st.streamers.length), ⟨remaining, ledger⟩)

/-- `getAllStreamers`. -/
def getAllStreamers (st : Storage) : List Streamer := st.streamers

/-- The `currentStream` object built from API stream info (storage lines 116-122). -/
def currentOfApi (i : ApiStream) : CurrentStream :=
  ⟨i.title, i.game_name, i.thumbnail_url, i.viewer_count, i.started_at⟩

/-- The in-place mutation `updateStreamerStatus` performs on the streamer it
found: set the live flag, and set `currentStream` exactly when the flag is true
and stream info was supplied, deleting it otherwise (storage lines 112-125). -/
def setStream (isLive : Bool) (info : Option ApiStream) (s : Streamer) : Streamer :=
  { s with isLive := isLive,
           currentStream := if isLive then info.map currentOfApi else none }

/-- Replace the first list element carrying the given id by its update (the
object `find` returns is mutated in place inside the array). -/
def updFirst (f : Streamer → Streamer) (id : String) : List Streamer → List Streamer
  | [] => []
  | s :: t => if s.id = id then f s :: t else s :: updFirst f id t

/-- `updateStreamerStatus`: null when the id is unknown; otherwise updates the
found streamer in place and returns the updated record. -/
def updateStreamerStatus (id : String) (isLive : Bool) (info : Option ApiStream)
    (st : Storage) : Option Streamer × Storage :=
  match findS st.streamers id with
  | none => (none, st)
  | some s =>
    (some (setStream isLive info s),
     { st with streamers := updFirst (setStream isLive info) id st.streamers })

/-- `shouldNotify`: true when no ledger entry exists; otherwise true exactly
when the stream start is strictly later than the recorded time.  A missing
stream-start compares as `NaN` in JS, so every comparison on it is false. -/
def shouldNotify (id : String) (streamStart : Option Nat) (st : Storage) : Bool :=
  match ledgerGet st.lastNotified id with
  | none => true
  | some t =>
    match streamStart with
    | none => false
    | some s => decide (t < s)

/-- `markNotified`: records the current wall-clock time (`new Date()`), not the
stream start, in the ledger. -/
def markNotified (id : String) (now : Nat) (st : Storage) : Storage :=
  { st with lastNotified := ledgerSet st.lastNotified id now }

/-- The first sendable text channel of a guild, when one exists; `sendOk`
records whether `channel.send` succeeds for this delivery. -/
structure GuildChannel where
  sendOk : Bool
deriving DecidableEq

/-- A guild the bot is a member of. -/
structure Guild where
  name : String
  channel : Option GuildChannel
deriving DecidableEq

/-- `sendLiveNotification`: walks every guild, skipping guilds with no sendable
channel, catching per-guild send failures, and returns the per-guild delivery
report; it never propagates an error. -/
def sendLiveNotification (streamer : Streamer) (info : ApiStream)
    (guilds : List Guild) : List (String × String × Bool) :=
  guilds.foldl
    (fun acc g =>
      match g.channel with
      | none => acc
      | some c => acc ++ [(g.name, streamer.id, c.sendOk)])
    []

/-- Accumulated result of a sweep: the storage threaded through the loop, the
notifications emitted, and the per-guild delivery reports. -/
structure SweepAcc where
  st : Storage
  notifs : List (String × ApiStream)
  deliveries : List (String × String × Bool)
deriving DecidableEq

/-- One iteration of the `checkAllStreamers` loop for a streamer `s` as read at
the start of the sweep: a failed fetch is caught and leaves everything
unchanged; otherwise the stored status is updated and, on an offline-to-live
edge the policy approves, the message is sent and the ledger updated. -/
def checkStreamerStep (fetch : String → Except Unit (Option ApiStream)) (now : Nat)
    (guilds : List Guild) (acc : SweepAcc) (s : Streamer) : SweepAcc :=
  match fetch s.id with
  | .error _ => acc
  | .ok info =>
    let wasLive := s.isLive
    let st1 := (updateStreamerStatus s.id info.isSome info acc.st).2
    match info with
    | none => { acc with st := st1 }
    | some i =>
      if !wasLive && shouldNotify s.id i.started_at st1 then
        { st := markNotified s.id now st1,
          notifs := acc.notifs ++ [(s.id, i)],
          deliveries := acc.deliveries ++ sendLiveNotification s i guilds }
      else { acc with st := st1 }

/-- `checkAllStreamers`: one sweep, reading the streamer list once and
processing each entry sequentially with per-entry failure isolation. -/
def checkAllStreamers (fetch : String → Except Unit (Option ApiStream)) (now : Nat)
    (guilds : List Guild) (st : Storage) : SweepAcc :=
  st.streamers.foldl (checkStreamerStep fetch now guilds) ⟨st, [], []⟩

/-- A fetcher whose answer is the same for every id (single-entity scenarios). -/
def constFetch (o : Option ApiStream) : String → Except Unit (Option ApiStream) :=
  fun _ => .ok o

/-- Run a sequence of sweeps; each element gives the per-id fetch outcome and
the sweep's wall-clock time; notifications accumulate across sweeps. -/
def runSweeps (obs : List ((String → Except Unit (Option ApiStream)) × Nat))
    (guilds : List Guild) (st : Storage) : Storage × List (String × ApiStream) :=
  obs.foldl
    (fun acc o =>
      let r := checkAllStreamers o.1 o.2 guilds acc.1
      (r.st, acc.2 ++ r.notifs))
    (st, [])

/-- A store operation issued by the command layer or the sweep. -/
inductive StoreOp where
  | addOp : ApiUser → Nat → StoreOp
  | removeOp : String → StoreOp
  | setLiveOp : String → Bool → Option ApiStream → StoreOp

/-- Apply one store operation, discarding the returned value. -/
def applyOp (st : Storage) : StoreOp → Storage
  | .addOp u now => (addStreamer u now st).2
  | .removeOp id => (removeStreamer id st).2
  | .setLiveOp id b info => (updateStreamerStatus id b info st).2

/-- Run a sequence of store operations from the empty store. -/
def runOps (ops : List StoreOp) : Storage := ops.foldl applyOp initStorage

/-- A setLive call is well-formed when session metadata accompanies a true live
flag, as the sweep guarantees by passing `isLive = !!streamInfo`. -/
def goodOp : StoreOp → Prop
  | .setLiveOp _ b info => b = true → info.isSome = true
  | _ => True

/-- Session metadata is present exactly when the live flag is set. -/
def liveConsistent (st : Storage) : Prop :=
  ∀ s ∈ st.streamers, s.currentStream.isSome = s.isLive

/-- Notifications for identifiers other than `a`. -/
def filterNe (a : String) (l : List (String × ApiStream)) : List (String × ApiStream) :=
  l.filter fun p => decide (p.1 ≠ a)

/-- A concrete Twitch user used in the witness scenarios. -/
def uX : ApiUser := ⟨"123", "alice", "Alice", "pic"⟩

/-- A second concrete Twitch user used in the witness scenarios. -/
def uY : ApiUser := ⟨"456", "bob", "Bob", "picb"⟩

/-- A live snapshot whose session started at time 0. -/
def sA : ApiStream := ⟨"t1", "g", "th", 5, some 0⟩

/-- A live snapshot whose session started at time 5. -/
def sB : ApiStream := ⟨"t2", "g", "th", 6, some 5⟩

/-- A live snapshot whose session started at time 20. -/
def sC : ApiStream := ⟨"t3", "g", "th", 9, some 20⟩

/-- A live snapshot with no session-start timestamp. -/
def sNoStart : ApiStream := ⟨"t", "g", "th", 7, none⟩

/-- The store holding exactly the watched streamer `uX`. -/
def stX : Storage := (addStreamer uX 0 initStorage).2

/-- A store where `uX` is watched, not live, and was last notified at time 5. -/
def stC4 : Storage := ⟨[mkStreamer uX 0], [("123", 5)]⟩

/-- A store with a stray ledger entry whose streamer is not watched. -/
def stGhost : Storage := ⟨[], [("123", 5)]⟩

/-- A store watching `uX` with two ledger entries. -/
def stW7 : Storage := ⟨[mkStreamer uX 0], [("123", 7), ("999", 3)]⟩

/-- A store watching the two streamers `uX` and `uY`. -/
def stW9 : Storage := ⟨[mkStreamer uX 0, mkStreamer uY 0], []⟩

/-- A fetcher reporting the session `sA` live for every id. -/
def fW9 : String → Except Unit (Option ApiStream) := constFetch (some sA)

/-- The fetcher `fW9` perturbed to fail for streamer "123". -/
def fW9f : String → Except Unit (Option ApiStream) :=
  fun x => if x = "123" then .error () else fW9 x

/-- Guilds whose every delivery attempt fails or has no usable channel. -/
def gFail : List Guild := [⟨"g1", some ⟨false⟩⟩, ⟨"g2", none⟩]

/-! ## Helper lemmas about the storage primitives -/

theorem hasId_eq_true_iff (l : List Streamer) (id : String) :
    hasId l id = true ↔ id ∈ l.map Streamer.id := by
  induction l with
  | nil => simp [hasId]
  | cons s t ih =>
    by_cases h : s.id = id
    · simp [hasId, h]
    · simp [hasId, h, ih, Ne.symm h]

theorem removeId_sublist (l : List Streamer) (id : String) :
    List.Sublist (removeId l id) l := by
  induction l with
  | nil => simp [removeId]
  | cons s t ih =>
    by_cases h : s.id = id
    · simpa [removeId, h] using ih.cons s
    · simpa [removeId, h] using ih.cons₂ s

theorem updFirst_map_id (f : Streamer → Streamer) (hf : ∀ x, (f x).id = x.id)
    (id : String) (l : List Streamer) :
    (updFirst f id l).map Streamer.id = l.map Streamer.id := by
  induction l with
  | nil => rfl
  | cons s t ih =>
    by_cases h : s.id = id
    · simp [updFirst, h, hf]
    · simp [updFirst, h, ih]

theorem mem_updFirst (f : Streamer → Streamer) (id : String) (l : List Streamer)
    (x : Streamer) (hx : x ∈ updFirst f id l) :
    (∃ y ∈ l, x = f y) ∨ x ∈ l := by
  induction l with
  | nil => simp [updFirst] at hx
  | cons s t ih =>
    by_cases h : s.id = id
    · simp only [updFirst, if_pos h, List.mem_cons] at hx
      rcases hx with rfl | hx
      · exact Or.inl ⟨s, by simp, rfl⟩
      · exact Or.inr (by simp [hx])
    · simp only [updFirst, if_neg h, List.mem_cons] at hx
      rcases hx with rfl | hx
      · exact Or.inr (by simp)
      · rcases ih hx with ⟨y, hy, rfl⟩ | hmem
        · exact Or.inl ⟨y, by simp [hy], rfl⟩
        · exact Or.inr (by simp [hmem])

theorem removeId_length_le (l : List Streamer) (id : String) :
    (removeId l id).length ≤ l.length := by
  induction l with
  | nil => simp [removeId]
  | cons s t ih =>
    by_cases h : s.id = id
    · simp only [removeId, if_pos h, List.length_cons]; omega
    · simp only [removeId, if_neg h, List.length_cons]; omega

theorem removeId_length_lt_iff (l : List Streamer) (id : String) :
    (removeId l id).length < l.length ↔ hasId l id = true := by
  induction l with
  | nil => simp [removeId, hasId]
  | cons s t ih =>
    by_cases h : s.id = id
    · simp only [removeId, if_pos h, hasId, List.length_cons]
      exact iff_of_true (Nat.lt_succ_of_le (removeId_length_le t id)) trivial
    · simp only [removeId, if_neg h, hasId, List.length_cons]
      constructor
      · intro hlt; exact ih.1 (by omega)
      · intro hh; have := ih.2 hh; omega

theorem hasId_removeId (l : List Streamer) (id : String) :
    hasId (removeId l id) id = false := by
  induction l with
  | nil => simp [removeId, hasId]
  | cons s t ih =>
    by_cases h : s.id = id
    · simpa [removeId, h] using ih
    · simpa [removeId, hasId, h] using ih

theorem removeId_eq_self (l : List Streamer) (id : String)
    (h : hasId l id = false) : removeId l id = l := by
  induction l with
  | nil => rfl
  | cons s t ih =>
    by_cases hs : s.id = id
    · simp [hasId, hs] at h
    · simp only [hasId, if_neg hs] at h
      simp [removeId, hs, ih h]

theorem ledgerGet_ledgerDel_self (l : List (String × Nat)) (id : String) :
    ledgerGet (ledgerDel l id) id = none := by
  induction l with
  | nil => rfl
  | cons p t ih =>
    obtain ⟨k, v⟩ := p
    by_cases h : k = id
    · simpa [ledgerDel, h] using ih
    · simpa [ledgerDel, ledgerGet, h] using ih

theorem ledgerGet_ledgerSet_self (l : List (String × Nat)) (k : String) (v : Nat) :
    ledgerGet (ledgerSet l k v) k = some v := by
  induction l with
  | nil => simp [ledgerSet, ledgerGet]
  | cons p t ih =>
    obtain ⟨k0, v0⟩ := p
    by_cases h : k0 = k
    · simp [ledgerSet, h, ledgerGet]
    · simp [ledgerSet, ledgerGet, h, ih]

theorem ledgerGet_ledgerSet_ne (l : List (String × Nat)) (k b : String) (v : Nat)
    (hb : b ≠ k) : ledgerGet (ledgerSet l k v) b = ledgerGet l b := by
  induction l with
  | nil => simp [ledgerSet, ledgerGet, Ne.symm hb]
  | cons p t ih =>
    obtain ⟨k0, v0⟩ := p
    by_cases h : k0 = k
    · subst h
      simp [ledgerSet, ledgerGet, Ne.symm hb]
    · simp [ledgerSet, ledgerGet, h, ih]

theorem nodup_applyOp (st : Storage) (op : StoreOp)
    (h : (st.streamers.map Streamer.id).Nodup) :
    ((applyOp st op).streamers.map Streamer.id).Nodup := by
  cases op with
  | addOp u now =>
    by_cases hx : hasId st.streamers u.id
    · simpa [applyOp, addStreamer, hx] using h
    · have hn : u.id ∉ st.streamers.map Streamer.id := by
        rw [← hasId_eq_true_iff]; simp [hx]
      have hred : (applyOp st (.addOp u now)).streamers
          = st.streamers ++ [mkStreamer u now] := by
        simp [applyOp, addStreamer, hx]
      rw [hred, List.map_append]
      exact h.append (by simp) (by simpa [List.disjoint_singleton, mkStreamer] using hn)
  | removeOp id =>
    have hred : (applyOp st (.removeOp id)).streamers = removeId st.streamers id := by
      simp [applyOp, removeStreamer]
    rw [hred]
    exact h.sublist ((removeId_sublist _ _).map _)
  | setLiveOp id b info =>
    cases hf : findS st.streamers id with
    | none => simpa [applyOp, updateStreamerStatus, hf] using h
    | some s =>
      have hred : (applyOp st (.setLiveOp id b info)).streamers
          = updFirst (setStream b info) id st.streamers := by
        simp [applyOp, updateStreamerStatus, hf]
      rw [hred, updFirst_map_id (setStream b info) (fun x => rfl) id st.streamers]
      exact h

theorem liveConsistent_applyOp (st : Storage) (op : StoreOp) (hop : goodOp op)
    (h : liveConsistent st) : liveConsistent (applyOp st op) := by
  cases op with
  | addOp u now =>
    by_cases hx : hasId st.streamers u.id
    · simpa [applyOp, addStreamer, hx] using h
    · intro s hs
      have hred : (applyOp st (.addOp u now)).streamers
          = st.streamers ++ [mkStreamer u now] := by
        simp [applyOp, addStreamer, hx]
      rw [hred] at hs
      rcases List.mem_append.1 hs with hs | hs
      · exact h s hs
      · simp only [List.mem_singleton] at hs
        subst hs; simp [mkStreamer]
  | removeOp id =>
    intro s hs
    have hred : (applyOp st (.removeOp id)).streamers = removeId st.streamers id := by
      simp [applyOp, removeStreamer]
    rw [hred] at hs
    exact h s ((removeId_sublist _ _).subset hs)
  | setLiveOp id b info =>
    cases hf : findS st.streamers id with
    | none => simpa [applyOp, updateStreamerStatus, hf] using h
    | some s0 =>
      intro s hs
      have hred : (applyOp st (.setLiveOp id b info)).streamers
          = updFirst (setStream b info) id st.streamers := by
        simp [applyOp, updateStreamerStatus, hf]
      rw [hred] at hs
      rcases mem_updFirst _ _ _ _ hs with ⟨y, hy, rfl⟩ | hmem
      · cases hb : b with
        | false => simp [setStream, hb]
        | true =>
          have := hop (by simp [hb])
          simp [setStream, hb, Option.isSome_map, this]
      · exact h s hmem

theorem liveConsistent_foldl :
    ∀ (ops : List StoreOp) (st : Storage), (∀ op ∈ ops, goodOp op) →
      liveConsistent st → liveConsistent (ops.foldl applyOp st)
  | [], _, _, h => h
  | op :: t, st, hops, h =>
    liveConsistent_foldl t _ (fun o ho => hops o (List.mem_cons_of_mem _ ho))
      (liveConsistent_applyOp st op (hops op (List.mem_cons_self _ _)) h)

/-! ## Claims -/

/-- C5: for every sequence of store operations (in particular every sequence of
add and remove operations) starting from the empty store, the entity store never
contains two entries with the same identifier. -/
theorem store_ids_nodup (ops : List StoreOp) :
    ((runOps ops).streamers.map Streamer.id).Nodup := by
  suffices h : ∀ st : Storage, (st.streamers.map Streamer.id).Nodup →
      ((ops.foldl applyOp st).streamers.map Streamer.id).Nodup by
    exact h initStorage (by simp [initStorage])
  induction ops with
  | nil => exact fun st h => h
  | cons op t ih => exact fun st h => ih _ (nodup_applyOp st op h)

/-- C6: `addStreamer` returns false and leaves the store unchanged when the
identifier is already present; otherwise it appends the entity with live flag
false and no session metadata and returns true. -/
theorem addStreamer_spec (u : ApiUser) (now : Nat) (st : Storage) :
    (hasId st.streamers u.id = true → addStreamer u now st = (false, st)) ∧
    (hasId st.streamers u.id = false →
      addStreamer u now st =
        (true, { st with streamers := st.streamers ++ [mkStreamer u now] }) ∧
      (mkStreamer u now).id = u.id ∧ (mkStreamer u now).isLive = false ∧
      (mkStreamer u now).currentStream = none) := by
  constructor
  · intro h; simp [addStreamer, h]
  · intro h; simp [addStreamer, h, mkStreamer]

/-- Witness for C6: adding "123" twice fails the second time and leaves the
store as it was; adding to the empty store succeeds and appends a record that
is not live and has no session metadata. -/
theorem addStreamer_spec_witness :
    (addStreamer uX 0 stX = (false, stX)) ∧
    (addStreamer uX 5 initStorage =
        (true, { initStorage with
                   streamers := initStorage.streamers ++ [mkStreamer uX 5] }) ∧
      (mkStreamer uX 5).id = uX.id ∧ (mkStreamer uX 5).isLive = false ∧
      (mkStreamer uX 5).currentStream = none) :=
  ⟨(addStreamer_spec uX 0 stX).1 (by decide),
   (addStreamer_spec uX 5 initStorage).2 (by decide)⟩

/-- C4 (amended): with a live snapshot lacking a session-start timestamp, the
policy notifies exactly when no dedup-ledger entry exists for the identifier;
an existing entry suppresses, because the JS comparison on an invalid date is
false. -/
theorem shouldNotify_missing_start (id : String) (st : Storage) :
    shouldNotify id none st = (ledgerGet st.lastNotified id).isNone := by
  cases h : ledgerGet st.lastNotified id <;> simp [shouldNotify, h]

/-- C4 counterexample: streamer "123" is watched and not live, a ledger entry
exists, and the live snapshot has no session start: the policy suppresses and
the sweep emits no notification, where the claim demands notification. -/
theorem missing_start_suppressed_counterexample :
    shouldNotify "123" none stC4 = false ∧
    (checkAllStreamers (constFetch (some sNoStart)) 9 [] stC4).notifs = [] := by
  decide

/-- C8 counterexample: calling the status update with live flag true and no
stream info yields a stored entity whose live flag is true but which carries no
`currentStream` metadata, violating the claimed equivalence. -/
theorem live_without_stream_counterexample :
    (runOps [StoreOp.addOp uX 0, StoreOp.setLiveOp "123" true none]).streamers.any
      (fun s => s.isLive && s.currentStream.isNone) = true := by
  decide

/-- C8 (amended): after every sequence of store operations in which each
setLive call with live flag true supplies session metadata (as the sweep always
does), every stored entity carries `currentStream` metadata exactly when its
live flag is true. -/
theorem live_flag_metadata_invariant (ops : List StoreOp)
    (hops : ∀ op ∈ ops, goodOp op) : liveConsistent (runOps ops) :=
  liveConsistent_foldl ops initStorage hops (by intro s hs; simp [initStorage] at hs)

/-- Witness for C8: a run that adds a streamer, marks it live with metadata and
removes another id keeps metadata consistent with the live flag. -/
theorem live_flag_metadata_invariant_witness :
    liveConsistent (runOps [StoreOp.addOp uX 0,
      StoreOp.setLiveOp "123" true (some sA), StoreOp.removeOp "999"]) :=
  live_flag_metadata_invariant _ (by
    intro op hop
    simp only [List.mem_cons, List.not_mem_nil, or_false] at hop
    rcases hop with rfl | rfl | rfl <;> simp [goodOp])

/-- C7 (amended): remove returns true exactly when an entity with the
identifier is present, removes that entity and any dedup-ledger entry for the
identifier; when the return is false the streamer list is unchanged, and the
whole storage is unchanged provided the ledger held no entry for that
identifier. -/
theorem removeStreamer_spec (id : String) (st : Storage) :
    ((removeStreamer id st).1 = hasId st.streamers id) ∧
    hasId (removeStreamer id st).2.streamers id = false ∧
    ledgerGet (removeStreamer id st).2.lastNotified id = none ∧
    ((removeStreamer id st).1 = false →
      (removeStreamer id st).2.streamers = st.streamers) ∧
    ((removeStreamer id st).1 = false → ledgerGet st.lastNotified id = none →
      (removeStreamer id st).2 = st) := by
  refine ⟨?_, ?_, ?_, ?_, ?_⟩
  · show decide ((removeId st.streamers id).length < st.streamers.length) = _
    cases h : hasId st.streamers id
    · rw [removeId_eq_self _ _ h]; simp
    · rw [decide_eq_true ((removeId_length_lt_iff st.streamers id).2 h)]
  · exact hasId_removeId _ _
  · show ledgerGet (match ledgerGet st.lastNotified id with
      | some _ => ledgerDel st.lastNotified id
      | none => st.lastNotified) id = none
    cases hg : ledgerGet st.lastNotified id
    · simp [hg]
    · simp [ledgerGet_ledgerDel_self]
  · intro h1
    cases hq : hasId st.streamers id
    · show removeId st.streamers id = st.streamers
      exact removeId_eq_self _ _ hq
    · exfalso
      have hlt := (removeId_length_lt_iff st.streamers id).2 hq
      rw [show (removeStreamer id st).1
          = decide ((removeId st.streamers id).length < st.streamers.length) from rfl,
        decide_eq_true hlt] at h1
      exact Bool.noConfusion h1
  · intro h1 h2
    cases hq : hasId st.streamers id
    · show (⟨removeId st.streamers id, match ledgerGet st.lastNotified id with
        | some _ => ledgerDel st.lastNotified id
        | none => st.lastNotified⟩ : Storage) = st
      rw [removeId_eq_self _ _ hq, h2]
    · exfalso
      have hlt := (removeId_length_lt_iff st.streamers id).2 hq
      rw [show (removeStreamer id st).1
          = decide ((removeId st.streamers id).length < st.streamers.length) from rfl,
        decide_eq_true hlt] at h1
      exact Bool.noConfusion h1

/-- Witness for C7: removing watched streamer "123" reports true and clears its
ledger entry; removing the absent "zzz" from the empty store changes nothing. -/
theorem removeStreamer_spec_witness :
    ((removeStreamer "123" stW7).1 = hasId stW7.streamers "123") ∧
    hasId (removeStreamer "123" stW7).2.streamers "123" = false ∧
    ledgerGet (removeStreamer "123" stW7).2.lastNotified "123" = none ∧
    (removeStreamer "zzz" initStorage).2.streamers = initStorage.streamers ∧
    (removeStreamer "zzz" initStorage).2 = initStorage :=
  ⟨(removeStreamer_spec "123" stW7).1,
   (removeStreamer_spec "123" stW7).2.1,
   (removeStreamer_spec "123" stW7).2.2.1,
   (removeStreamer_spec "zzz" initStorage).2.2.2.1 (by decide),
   (removeStreamer_spec "zzz" initStorage).2.2.2.2 (by decide) (by decide)⟩

/-- C7 counterexample: on a store with a stray ledger entry for "123" and no
such watched streamer, remove reports false but deletes the ledger entry, so
the storage is not left unchanged as the claim states. -/
theorem remove_absent_changes_ledger_counterexample :
    (removeStreamer "123" stGhost).1 = false ∧
    (removeStreamer "123" stGhost).2 ≠ stGhost := by
  decide

/-- C2 (amended): when a sweep sees a not-previously-live streamer go live,
one notification is emitted and the dedup-ledger entry records the sweep's
wall-clock notification time (the argument of `markNotified`), not the
snapshot's session-start timestamp. -/
theorem ledger_records_notification_time (u : ApiUser) (addTime sweepTime : Nat)
    (i : ApiStream) :
    (checkAllStreamers (constFetch (some i)) sweepTime []
        (addStreamer u addTime initStorage).2).notifs = [(u.id, i)] ∧
    ledgerGet (checkAllStreamers (constFetch (some i)) sweepTime []
        (addStreamer u addTime initStorage).2).st.lastNotified u.id
      = some sweepTime ∧
    (findS (checkAllStreamers (constFetch (some i)) sweepTime []
        (addStreamer u addTime initStorage).2).st.streamers u.id).map
      Streamer.isLive = some true := by
  simp [checkAllStreamers, addStreamer, initStorage, hasId, constFetch,
        checkStreamerStep, updateStreamerStatus, findS, mkStreamer, setStream,
        shouldNotify, ledgerGet, markNotified, ledgerSet, sendLiveNotification,
        updFirst]

/-- C2 counterexample: streamer "123" goes live with session start 0 and the
sweep runs at time 10; a notification is emitted but the ledger entry is not
the session-start timestamp. -/
theorem ledger_not_session_start_counterexample :
    (checkAllStreamers (constFetch (some sA)) 10 [] stX).notifs.length = 1 ∧
    sA.started_at = some 0 ∧
    ledgerGet (checkAllStreamers (constFetch (some sA)) 10 [] stX).st.lastNotified
      "123" ≠ some 0 := by
  decide

/-- C1 (amended): for snapshot sequence offline, live(T1), offline, live(T2),
exactly two notifications fire provided the second session start T2 is later
than the wall-clock time n2 recorded at the first notification (the policy
compares T2 against the recorded notification time, and T2 > T1 alone does not
suffice; in a real timeline T2 > n2 holds because the second session begins
after the first notification was recorded). -/
theorem two_sessions_two_notifications (u : ApiUser) (addTime : Nat)
    (s1 s2 : ApiStream) (T1 T2 n1 n2 n3 n4 : Nat)
    (h1 : s1.started_at = some T1) (h2 : s2.started_at = some T2)
    (hTT : T1 < T2) (hn : n2 < T2) :
    (runSweeps [(constFetch none, n1), (constFetch (some s1), n2),
                (constFetch none, n3), (constFetch (some s2), n4)] []
        (addStreamer u addTime initStorage).2).2
      = [(u.id, s1), (u.id, s2)] := by
  have hd : decide (n2 < T2) = true := decide_eq_true hn
  simp [runSweeps, checkAllStreamers, addStreamer, initStorage, hasId, constFetch,
        checkStreamerStep, updateStreamerStatus, findS, mkStreamer, setStream,
        shouldNotify, ledgerGet, markNotified, ledgerSet, sendLiveNotification,
        updFirst, h1, h2, hd]

/-- Witness for C1 (amended): sessions starting at 0 and 20 observed at sweep
times 1, 10, 15, 30 produce exactly two notifications. -/
theorem two_sessions_two_notifications_witness :
    (runSweeps [(constFetch none, 1), (constFetch (some sA), 10),
                (constFetch none, 15), (constFetch (some sC), 30)] []
        (addStreamer uX 0 initStorage).2).2 = [(uX.id, sA), (uX.id, sC)] :=
  two_sessions_two_notifications uX 0 sA sC 0 20 1 10 15 30 rfl rfl
    (by decide) (by decide)

/-- C1 counterexample: session starts T1 = 0 then T2 = 5 with T2 > T1, but the
first notification was recorded at wall-clock 10; the second live observation
compares 5 against 10 and is suppressed, so exactly one notification fires
where the claim demands two. -/
theorem two_sessions_one_notification_counterexample :
    sA.started_at = some 0 ∧ sB.started_at = some 5 ∧
    (runSweeps [(constFetch none, 1), (constFetch (some sA), 10),
                (constFetch none, 20), (constFetch (some sB), 30)] []
        (addStreamer uX 0 initStorage).2).2.length = 1 := by
  decide

/-- C3: for snapshot sequence offline, live(T1), live(T1), offline, live(T1)
(the same session reappearing after a missed blip), with the session already
started when first observed live (T1 ≤ n2), exactly one notification fires,
and it is already present right after the first live observation. -/
theorem same_session_one_notification (u : ApiUser) (addTime : Nat)
    (s1 s2 s3 : ApiStream) (T1 n1 n2 n3 n4 n5 : Nat)
    (h1 : s1.started_at = some T1) (h2 : s2.started_at = some T1)
    (h3 : s3.started_at = some T1) (hT : T1 ≤ n2) :
    (runSweeps [(constFetch none, n1), (constFetch (some s1), n2)] []
        (addStreamer u addTime initStorage).2).2 = [(u.id, s1)] ∧
    (runSweeps [(constFetch none, n1), (constFetch (some s1), n2),
                (constFetch (some s2), n3), (constFetch none, n4),
                (constFetch (some s3), n5)] []
        (addStreamer u addTime initStorage).2).2 = [(u.id, s1)] := by
  have hd : decide (n2 < T1) = false := decide_eq_false (Nat.not_lt.mpr hT)
  simp [runSweeps, checkAllStreamers, addStreamer, initStorage, hasId, constFetch,
        checkStreamerStep, updateStreamerStatus, findS, mkStreamer, setStream,
        shouldNotify, ledgerGet, markNotified, ledgerSet, sendLiveNotification,
        updFirst, h1, h2, h3, hd]

/-- Witness for C3: the same session (start 0) observed live at sweeps 10, 15
and 30 with an offline blip at 20 notifies exactly once, at sweep 10. -/
theorem same_session_one_notification_witness :
    (runSweeps [(constFetch none, 1), (constFetch (some sA), 10)] []
        (addStreamer uX 0 initStorage).2).2 = [(uX.id, sA)] ∧
    (runSweeps [(constFetch none, 1), (constFetch (some sA), 10),
                (constFetch (some sA), 15), (constFetch none, 20),
                (constFetch (some sA), 30)] []
        (addStreamer uX 0 initStorage).2).2 = [(uX.id, sA)] :=
  same_session_one_notification uX 0 sA sA sA 0 1 10 15 20 30 rfl rfl rfl
    (by decide)

/-! ## Helper lemmas for the sweep theorems -/

theorem findS_updFirst_ne (f : Streamer → Streamer) (hf : ∀ x, (f x).id = x.id)
    (id b : String) (l : List Streamer) (hb : b ≠ id) :
    findS (updFirst f id l) b = findS l b := by
  induction l with
  | nil => rfl
  | cons s t ih =>
    by_cases h : s.id = id
    · have hb1 : ¬ ((f s).id = b) := by rw [hf s, h]; exact Ne.symm hb
      have hb2 : ¬ (s.id = b) := by rw [h]; exact Ne.symm hb
      simp [updFirst, if_pos h, findS, if_neg hb1, if_neg hb2]
    · by_cases h2 : s.id = b
      · simp [updFirst, if_neg h, findS, if_pos h2]
      · simp [updFirst, if_neg h, findS, if_neg h2, ih]

theorem findS_updFirst_self (f : Streamer → Streamer) (hf : ∀ x, (f x).id = x.id)
    (id : String) (l : List Streamer) :
    findS (updFirst f id l) id = (findS l id).map f := by
  induction l with
  | nil => rfl
  | cons s t ih =>
    by_cases h : s.id = id
    · have hfs : (f s).id = id := by rw [hf s, h]
      simp [updFirst, if_pos h, findS, if_pos hfs]
    · simp [updFirst, if_neg h, findS, if_neg h, ih]

theorem findS_update (id b : String) (iL : Bool) (info : Option ApiStream)
    (st : Storage) :
    findS (updateStreamerStatus id iL info st).2.streamers b
      = if b = id then (findS st.streamers id).map (setStream iL info)
        else findS st.streamers b := by
  cases hf : findS st.streamers id with
  | none =>
    simp only [updateStreamerStatus, hf]
    by_cases hb : b = id
    · subst hb; rw [if_pos rfl, hf]; rfl
    · rw [if_neg hb]
  | some s =>
    simp only [updateStreamerStatus, hf]
    by_cases hb : b = id
    · subst hb
      rw [if_pos rfl, findS_updFirst_self (setStream iL info) (fun x => rfl) b st.streamers,
        hf]
    · rw [if_neg hb, findS_updFirst_ne (setStream iL info) (fun x => rfl) id b st.streamers hb]

theorem lastNotified_update (id : String) (iL : Bool) (info : Option ApiStream)
    (st : Storage) :
    (updateStreamerStatus id iL info st).2.lastNotified = st.lastNotified := by
  cases hf : findS st.streamers id <;> simp [updateStreamerStatus, hf]

theorem filterNe_append (a : String) (l1 l2 : List (String × ApiStream)) :
    filterNe a (l1 ++ l2) = filterNe a l1 ++ filterNe a l2 :=
  List.filter_append _ _

theorem filterNe_self_singleton (a : String) (i : ApiStream) :
    filterNe a [(a, i)] = [] := by
  simp [filterNe]

theorem filterNe_other_singleton (a b : String) (i : ApiStream) (h : b ≠ a) :
    filterNe a [(b, i)] = [(b, i)] := by
  simp [filterNe, h]

theorem checkStreamerStep_localized (f : String → Except Unit (Option ApiStream))
    (now : Nat) (guilds : List Guild) (acc : SweepAcc) (s : Streamer) :
    (∀ b, b ≠ s.id →
      findS (checkStreamerStep f now guilds acc s).st.streamers b
        = findS acc.st.streamers b ∧
      ledgerGet (checkStreamerStep f now guilds acc s).st.lastNotified b
        = ledgerGet acc.st.lastNotified b) ∧
    filterNe s.id (checkStreamerStep f now guilds acc s).notifs
      = filterNe s.id acc.notifs := by
  cases hq : f s.id with
  | error e => simp [checkStreamerStep, hq]
  | ok info =>
    cases info with
    | none =>
      have he : checkStreamerStep f now guilds acc s
          = { acc with st := (updateStreamerStatus s.id false none acc.st).2 } := by
        simp [checkStreamerStep, hq]
      refine ⟨fun b hb => ⟨?_, ?_⟩, ?_⟩
      · rw [he]
        show findS (updateStreamerStatus s.id false none acc.st).2.streamers b = _
        rw [findS_update, if_neg hb]
      · rw [he]
        show ledgerGet (updateStreamerStatus s.id false none acc.st).2.lastNotified b = _
        rw [lastNotified_update]
      · rw [he]
    | some i =>
      cases hc : (!s.isLive && shouldNotify s.id i.started_at
          (updateStreamerStatus s.id true (some i) acc.st).2) with
      | false =>
        have he : checkStreamerStep f now guilds acc s
            = { acc with st := (updateStreamerStatus s.id true (some i) acc.st).2 } := by
          simp [checkStreamerStep, hq, hc]
        refine ⟨fun b hb => ⟨?_, ?_⟩, ?_⟩
        · rw [he]
          show findS (updateStreamerStatus s.id true (some i) acc.st).2.streamers b = _
          rw [findS_update, if_neg hb]
        · rw [he]
          show ledgerGet (updateStreamerStatus s.id true (some i) acc.st).2.lastNotified b = _
          rw [lastNotified_update]
        · rw [he]
      | true =>
        have he : checkStreamerStep f now guilds acc s
            = ⟨markNotified s.id now (updateStreamerStatus s.id true (some i) acc.st).2,
               acc.notifs ++ [(s.id, i)],
               acc.deliveries ++ sendLiveNotification s i guilds⟩ := by
          simp [checkStreamerStep, hq, hc]
        refine ⟨fun b hb => ⟨?_, ?_⟩, ?_⟩
        · rw [he]
          show findS (updateStreamerStatus s.id true (some i) acc.st).2.streamers b = _
          rw [findS_update, if_neg hb]
        · rw [he]
          show ledgerGet (ledgerSet
            (updateStreamerStatus s.id true (some i) acc.st).2.lastNotified s.id now) b = _
          rw [ledgerGet_ledgerSet_ne _ _ _ _ hb, lastNotified_update]
        · rw [he]
          show filterNe s.id (acc.notifs ++ [(s.id, i)]) = filterNe s.id acc.notifs
          rw [filterNe_append, filterNe_self_singleton, List.append_nil]

theorem checkStreamerStep_rel (f fe : String → Except Unit (Option ApiStream))
    (now : Nat) (guilds : List Guild) (a : String)
    (hfe : fe a = .error ()) (hagree : ∀ b, b ≠ a → fe b = f b)
    (s : Streamer) (acc acce : SweepAcc)
    (h1 : ∀ b, b ≠ a → findS acce.st.streamers b = findS acc.st.streamers b)
    (h2 : ∀ b, b ≠ a →
      ledgerGet acce.st.lastNotified b = ledgerGet acc.st.lastNotified b)
    (h3 : filterNe a acce.notifs = filterNe a acc.notifs) :
    (∀ b, b ≠ a →
      findS (checkStreamerStep fe now guilds acce s).st.streamers b
        = findS (checkStreamerStep f now guilds acc s).st.streamers b) ∧
    (∀ b, b ≠ a →
      ledgerGet (checkStreamerStep fe now guilds acce s).st.lastNotified b
        = ledgerGet (checkStreamerStep f now guilds acc s).st.lastNotified b) ∧
    filterNe a (checkStreamerStep fe now guilds acce s).notifs
      = filterNe a (checkStreamerStep f now guilds acc s).notifs := by
  by_cases hsa : s.id = a
  · have he : checkStreamerStep fe now guilds acce s = acce := by
      simp [checkStreamerStep, hsa, hfe]
    obtain ⟨hloc, hnot⟩ := checkStreamerStep_localized f now guilds acc s
    refine ⟨fun b hb => ?_, fun b hb => ?_, ?_⟩
    · rw [he, (hloc b (fun hc => hb (hc.trans hsa))).1]; exact h1 b hb
    · rw [he, (hloc b (fun hc => hb (hc.trans hsa))).2]; exact h2 b hb
    · rw [hsa] at hnot
      rw [he, hnot]; exact h3
  · have hfeq : fe s.id = f s.id := hagree s.id hsa
    cases hq : f s.id with
    | error e =>
      have he1 : checkStreamerStep fe now guilds acce s = acce := by
        simp [checkStreamerStep, hfeq, hq]
      have he2 : checkStreamerStep f now guilds acc s = acc := by
        simp [checkStreamerStep, hq]
      rw [he1, he2]; exact ⟨h1, h2, h3⟩
    | ok info =>
      cases info with
      | none =>
        have he1 : checkStreamerStep fe now guilds acce s
            = { acce with st := (updateStreamerStatus s.id false none acce.st).2 } := by
          simp [checkStreamerStep, hfeq, hq]
        have he2 : checkStreamerStep f now guilds acc s
            = { acc with st := (updateStreamerStatus s.id false none acc.st).2 } := by
          simp [checkStreamerStep, hq]
        refine ⟨fun b hb => ?_, fun b hb => ?_, ?_⟩
        · rw [he1, he2]
          show findS (updateStreamerStatus s.id false none acce.st).2.streamers b
            = findS (updateStreamerStatus s.id false none acc.st).2.streamers b
          rw [findS_update, findS_update]
          by_cases hbs : b = s.id
          · rw [if_pos hbs, if_pos hbs, h1 s.id hsa]
          · rw [if_neg hbs, if_neg hbs]; exact h1 b hb
        · rw [he1, he2]
          show ledgerGet (updateStreamerStatus s.id false none acce.st).2.lastNotified b
            = ledgerGet (updateStreamerStatus s.id false none acc.st).2.lastNotified b
          rw [lastNotified_update, lastNotified_update]; exact h2 b hb
        · rw [he1, he2]; exact h3
      | some i =>
        have hsn : shouldNotify s.id i.started_at
              (updateStreamerStatus s.id true (some i) acce.st).2
            = shouldNotify s.id i.started_at
              (updateStreamerStatus s.id true (some i) acc.st).2 := by
          unfold shouldNotify
          rw [lastNotified_update, lastNotified_update, h2 s.id hsa]
        have hcond : (!s.isLive && shouldNotify s.id i.started_at
              (updateStreamerStatus s.id true (some i) acce.st).2)
            = (!s.isLive && shouldNotify s.id i.started_at
              (updateStreamerStatus s.id true (some i) acc.st).2) := by
          rw [hsn]
        cases hc : (!s.isLive && shouldNotify s.id i.started_at
            (updateStreamerStatus s.id true (some i) acc.st).2) with
        | false =>
          have he1 : checkStreamerStep fe now guilds acce s
              = { acce with st := (updateStreamerStatus s.id true (some i) acce.st).2 } := by
            simp [checkStreamerStep, hfeq, hq, hcond.trans hc]
          have he2 : checkStreamerStep f now guilds acc s
              = { acc with st := (updateStreamerStatus s.id true (some i) acc.st).2 } := by
            simp [checkStreamerStep, hq, hc]
          refine ⟨fun b hb => ?_, fun b hb => ?_, ?_⟩
          · rw [he1, he2]
            show findS (updateStreamerStatus s.id true (some i) acce.st).2.streamers b
              = findS (updateStreamerStatus s.id true (some i) acc.st).2.streamers b
            rw [findS_update, findS_update]
            by_cases hbs : b = s.id
            · rw [if_pos hbs, if_pos hbs, h1 s.id hsa]
            · rw [if_neg hbs, if_neg hbs]; exact h1 b hb
          · rw [he1, he2]
            show ledgerGet (updateStreamerStatus s.id true (some i) acce.st).2.lastNotified b
              = ledgerGet (updateStreamerStatus s.id true (some i) acc.st).2.lastNotified b
            rw [lastNotified_update, lastNotified_update]; exact h2 b hb
          · rw [he1, he2]; exact h3
        | true =>
          have he1 : checkStreamerStep fe now guilds acce s
              = ⟨markNotified s.id now (updateStreamerStatus s.id true (some i) acce.st).2,
                 acce.notifs ++ [(s.id, i)],
                 acce.deliveries ++ sendLiveNotification s i guilds⟩ := by
            simp [checkStreamerStep, hfeq, hq, hcond.trans hc]
          have he2 : checkStreamerStep f now guilds acc s
              = ⟨markNotified s.id now (updateStreamerStatus s.id true (some i) acc.st).2,
                 acc.notifs ++ [(s.id, i)],
                 acc.deliveries ++ sendLiveNotification s i guilds⟩ := by
            simp [checkStreamerStep, hq, hc]
          refine ⟨fun b hb => ?_, fun b hb => ?_, ?_⟩
          · rw [he1, he2]
            show findS (updateStreamerStatus s.id true (some i) acce.st).2.streamers b
              = findS (updateStreamerStatus s.id true (some i) acc.st).2.streamers b
            rw [findS_update, findS_update]
            by_cases hbs : b = s.id
            · rw [if_pos hbs, if_pos hbs, h1 s.id hsa]
            · rw [if_neg hbs, if_neg hbs]; exact h1 b hb
          · rw [he1, he2]
            show ledgerGet (ledgerSet
                (updateStreamerStatus s.id true (some i) acce.st).2.lastNotified s.id now) b
              = ledgerGet (ledgerSet
                (updateStreamerStatus s.id true (some i) acc.st).2.lastNotified s.id now) b
            by_cases hbs : b = s.id
            · subst hbs
              rw [ledgerGet_ledgerSet_self, ledgerGet_ledgerSet_self]
            · rw [ledgerGet_ledgerSet_ne _ _ _ _ hbs, ledgerGet_ledgerSet_ne _ _ _ _ hbs,
                lastNotified_update, lastNotified_update]
              exact h2 b hb
          · rw [he1, he2]
            show filterNe a (acce.notifs ++ [(s.id, i)])
              = filterNe a (acc.notifs ++ [(s.id, i)])
            rw [filterNe_append, filterNe_append, h3]

theorem sweepFold_rel (f fe : String → Except Unit (Option ApiStream))
    (now : Nat) (guilds : List Guild) (a : String)
    (hfe : fe a = .error ()) (hagree : ∀ b, b ≠ a → fe b = f b) :
    ∀ (todo : List Streamer) (acc acce : SweepAcc),
      (∀ b, b ≠ a → findS acce.st.streamers b = findS acc.st.streamers b) →
      (∀ b, b ≠ a →
        ledgerGet acce.st.lastNotified b = ledgerGet acc.st.lastNotified b) →
      filterNe a acce.notifs = filterNe a acc.notifs →
      (∀ b, b ≠ a →
        findS (todo.foldl (checkStreamerStep fe now guilds) acce).st.streamers b
          = findS (todo.foldl (checkStreamerStep f now guilds) acc).st.streamers b) ∧
      (∀ b, b ≠ a →
        ledgerGet (todo.foldl (checkStreamerStep fe now guilds) acce).st.lastNotified b
          = ledgerGet (todo.foldl (checkStreamerStep f now guilds) acc).st.lastNotified b) ∧
      filterNe a (todo.foldl (checkStreamerStep fe now guilds) acce).notifs
        = filterNe a (todo.foldl (checkStreamerStep f now guilds) acc).notifs
  | [], acc, acce, h1, h2, h3 => ⟨h1, h2, h3⟩
  | s :: t, acc, acce, h1, h2, h3 => by
    rw [List.foldl_cons, List.foldl_cons]
    obtain ⟨g1, g2, g3⟩ :=
      checkStreamerStep_rel f fe now guilds a hfe hagree s acc acce h1 h2 h3
    exact sweepFold_rel f fe now guilds a hfe hagree t _ _ g1 g2 g3

theorem sweepFold_unchanged (fe : String → Except Unit (Option ApiStream))
    (now : Nat) (guilds : List Guild) (a : String) (hfe : fe a = .error ()) :
    ∀ (todo : List Streamer) (acc : SweepAcc),
      findS (todo.foldl (checkStreamerStep fe now guilds) acc).st.streamers a
          = findS acc.st.streamers a ∧
      ledgerGet (todo.foldl (checkStreamerStep fe now guilds) acc).st.lastNotified a
          = ledgerGet acc.st.lastNotified a
  | [], acc => ⟨rfl, rfl⟩
  | s :: t, acc => by
    rw [List.foldl_cons]
    by_cases hsa : s.id = a
    · have he : checkStreamerStep fe now guilds acc s = acc := by
        simp [checkStreamerStep, hsa, hfe]
      rw [he]
      exact sweepFold_unchanged fe now guilds a hfe t acc
    · have hloc :=
        (checkStreamerStep_localized fe now guilds acc s).1 a (fun hc => hsa hc.symm)
      have ih := sweepFold_unchanged fe now guilds a hfe t
        (checkStreamerStep fe now guilds acc s)
      exact ⟨ih.1.trans hloc.1, ih.2.trans hloc.2⟩

theorem sweepFold_guild_indep (f : String → Except Unit (Option ApiStream))
    (now : Nat) (g1 g2 : List Guild) :
    ∀ (todo : List Streamer) (a1 a2 : SweepAcc), a1.st = a2.st →
      a1.notifs = a2.notifs →
      (todo.foldl (checkStreamerStep f now g1) a1).st
          = (todo.foldl (checkStreamerStep f now g2) a2).st ∧
      (todo.foldl (checkStreamerStep f now g1) a1).notifs
          = (todo.foldl (checkStreamerStep f now g2) a2).notifs
  | [], a1, a2, hst, hnot => ⟨hst, hnot⟩
  | s :: t, a1, a2, hst, hnot => by
    rw [List.foldl_cons, List.foldl_cons]
    have hstep : (checkStreamerStep f now g1 a1 s).st
          = (checkStreamerStep f now g2 a2 s).st ∧
        (checkStreamerStep f now g1 a1 s).notifs
          = (checkStreamerStep f now g2 a2 s).notifs := by
      cases hq : f s.id with
      | error e =>
        exact ⟨by simp [checkStreamerStep, hq, hst], by simp [checkStreamerStep, hq, hnot]⟩
      | ok info =>
        cases info with
        | none =>
          exact ⟨by simp [checkStreamerStep, hq, hst], by simp [checkStreamerStep, hq, hnot]⟩
        | some i =>
          have hcond : (!s.isLive && shouldNotify s.id i.started_at
                (updateStreamerStatus s.id true (some i) a1.st).2)
              = (!s.isLive && shouldNotify s.id i.started_at
                (updateStreamerStatus s.id true (some i) a2.st).2) := by
            rw [hst]
          cases hc : (!s.isLive && shouldNotify s.id i.started_at
              (updateStreamerStatus s.id true (some i) a2.st).2) with
          | false =>
            exact ⟨by simp [checkStreamerStep, hq, hcond.trans hc, hc, hst],
                   by simp [checkStreamerStep, hq, hcond.trans hc, hc, hnot]⟩
          | true =>
            exact ⟨by simp [checkStreamerStep, hq, hcond.trans hc, hc, hst],
                   by simp [checkStreamerStep, hq, hcond.trans hc, hc, hnot]⟩
    exact sweepFold_guild_indep f now g1 g2 t _ _ hstep.1 hstep.2

/-- C9: a fetch failure for one watched entity does not abort the sweep: with
`fe` failing exactly for entity `a` and agreeing with `f` elsewhere, every
other entity's stored record, ledger entry and notifications come out exactly
as in the unperturbed sweep, while the failing entity's stored record and
ledger entry are left unchanged for the cycle. -/
theorem sweep_failure_isolation (st : Storage)
    (f fe : String → Except Unit (Option ApiStream)) (now : Nat)
    (guilds : List Guild) (a : String)
    (hfe : fe a = .error ()) (hagree : ∀ b, b ≠ a → fe b = f b) :
    (∀ b, b ≠ a →
      findS (checkAllStreamers fe now guilds st).st.streamers b
        = findS (checkAllStreamers f now guilds st).st.streamers b ∧
      ledgerGet (checkAllStreamers fe now guilds st).st.lastNotified b
        = ledgerGet (checkAllStreamers f now guilds st).st.lastNotified b) ∧
    filterNe a (checkAllStreamers fe now guilds st).notifs
      = filterNe a (checkAllStreamers f now guilds st).notifs ∧
    findS (checkAllStreamers fe now guilds st).st.streamers a
      = findS st.streamers a ∧
    ledgerGet (checkAllStreamers fe now guilds st).st.lastNotified a
      = ledgerGet st.lastNotified a := by
  have haux := sweepFold_rel f fe now guilds a hfe hagree st.streamers
    ⟨st, [], []⟩ ⟨st, [], []⟩ (fun b _ => rfl) (fun b _ => rfl) rfl
  have hunch := sweepFold_unchanged fe now guilds a hfe st.streamers ⟨st, [], []⟩
  exact ⟨fun b hb => ⟨haux.1 b hb, haux.2.1 b hb⟩, haux.2.2, hunch.1, hunch.2⟩

/-- Witness for C9: with both "123" and "456" watched and the fetch failing
only for "123", entity "456" is processed exactly as in the healthy sweep and
"123" keeps its stored record and (absent) ledger entry. -/
theorem sweep_failure_isolation_witness :
    (∀ b, b ≠ "123" →
      findS (checkAllStreamers fW9f 7 [] stW9).st.streamers b
        = findS (checkAllStreamers fW9 7 [] stW9).st.streamers b ∧
      ledgerGet (checkAllStreamers fW9f 7 [] stW9).st.lastNotified b
        = ledgerGet (checkAllStreamers fW9 7 [] stW9).st.lastNotified b) ∧
    filterNe "123" (checkAllStreamers fW9f 7 [] stW9).notifs
      = filterNe "123" (checkAllStreamers fW9 7 [] stW9).notifs ∧
    findS (checkAllStreamers fW9f 7 [] stW9).st.streamers "123"
      = findS stW9.streamers "123" ∧
    ledgerGet (checkAllStreamers fW9f 7 [] stW9).st.lastNotified "123"
      = ledgerGet stW9.lastNotified "123" :=
  sweep_failure_isolation stW9 fW9 fW9f 7 [] "123" (by simp [fW9f])
    (fun b hb => by simp [fW9f, hb])

/-- C10: the notification dispatch step never influences the stored state: the
sweep's resulting storage and notification list are the same for any guild
configuration (in particular when every delivery fails), and whenever the
policy decides to notify a single watched entity, the ledger entry afterwards
holds the sweep's wall-clock time regardless of delivery outcomes. -/
theorem notification_ledger_despite_delivery_failure
    (f : String → Except Unit (Option ApiStream)) (now : Nat)
    (g1 g2 : List Guild) (st : Storage) :
    ((checkAllStreamers f now g1 st).st = (checkAllStreamers f now g2 st).st ∧
     (checkAllStreamers f now g1 st).notifs
       = (checkAllStreamers f now g2 st).notifs) ∧
    (∀ s i, st.streamers = [s] → f s.id = .ok (some i) → s.isLive = false →
      shouldNotify s.id i.started_at
        (updateStreamerStatus s.id true (some i) st).2 = true →
      ledgerGet (checkAllStreamers f now g1 st).st.lastNotified s.id = some now) := by
  constructor
  · exact sweepFold_guild_indep f now g1 g2 st.streamers ⟨st, [], []⟩ ⟨st, [], []⟩ rfl rfl
  · intro s i hs hq hlive hsn
    show ledgerGet
      (st.streamers.foldl (checkStreamerStep f now g1) ⟨st, [], []⟩).st.lastNotified s.id
        = some now
    rw [hs, List.foldl_cons, List.foldl_nil]
    have he : checkStreamerStep f now g1 ⟨st, [], []⟩ s
        = ⟨markNotified s.id now (updateStreamerStatus s.id true (some i) st).2,
           [(s.id, i)], sendLiveNotification s i g1⟩ := by
      simp [checkStreamerStep, hq, hlive, hsn]
    rw [he]
    show ledgerGet (ledgerSet
      (updateStreamerStatus s.id true (some i) st).2.lastNotified s.id now) s.id = some now
    exact ledgerGet_ledgerSet_self _ _ _

/-- Witness for C10: streamer "123" goes live while watched and not live; with
guilds whose every delivery fails or lacks a channel, the sweep's storage and
notifications match the no-guild run and the ledger entry records time 7. -/
theorem notification_ledger_despite_delivery_failure_witness :
    ((checkAllStreamers fW9 7 gFail stX).st = (checkAllStreamers fW9 7 [] stX).st ∧
     (checkAllStreamers fW9 7 gFail stX).notifs
       = (checkAllStreamers fW9 7 [] stX).notifs) ∧
    ledgerGet (checkAllStreamers fW9 7 gFail stX).st.lastNotified
      (mkStreamer uX 0).id = some 7 :=
  ⟨(notification_ledger_despite_delivery_failure fW9 7 gFail [] stX).1,
   (notification_ledger_despite_delivery_failure fW9 7 gFail [] stX).2
     (mkStreamer uX 0) sA rfl rfl rfl (by decide)⟩

end TwitchUp
